import Mathlib

/-
Verification of the track-management and SDP-rewriting core of
modules/RTC/TPCUtils.js (TPCUtils class) against its design document.

The JavaScript code is shallowly embedded: the mutable peer-connection
bookkeeping (localTracks, localSSRCs, _addedStreams, the transceiver list)
becomes an explicit state record threaded through each operation, promise
rejection becomes an error result, a thrown TypeError becomes an Option
failure, and the sdp-transform parsed session description becomes a
concrete record of media sections.
-/

namespace TPCUtilsModel

/-- Media kind of a local track, per the MediaType service constants. -/
inductive MediaType where
  | audio
  | video
deriving DecidableEq, Repr

/-- Static browser capability and quirk flags that TPCUtils.js reads through
the browser module. Resolved once; each is a plain boolean. -/
structure BrowserCfg where
  isFirefox : Bool
  isChromiumBased : Bool
  isWebKitBased : Bool
  isReactNative : Bool
  doesVideoMuteByStreamRemove : Bool
  usesSdpMungingForSimulcast : Bool
  isVersionGreaterThan71 : Bool
deriving DecidableEq, Repr

/-- One rid entry of a media section as produced by sdp-transform. -/
structure Rid where
  id : String
  direction : String
deriving DecidableEq, Repr

/-- One source descriptor line of a media section (sdp-transform ssrcs entry). -/
structure SsrcDesc where
  id : Nat
  attributeName : String
  value : String
deriving DecidableEq, Repr

/-- One source-grouping line of a media section; ssrcs is the raw
space-separated member id string exactly as sdp-transform stores it. -/
structure SsrcGroup where
  semantics : String
  ssrcs : String
deriving DecidableEq, Repr

/-- A parsed media section. Fields the rewriters never touch are collected
in rest. An absent rids / simulcast / simulcast03 field is none; an absent
ssrcs array (sdp-transform leaves it undefined when a section has no
a=ssrc line) is none; an absent ssrcGroups array is the empty list, which
the code guard at the top of the reorder loop treats the same way. -/
structure MLine where
  type : String
  ssrcs : Option (List SsrcDesc)
  ssrcGroups : List SsrcGroup
  rids : Option (List Rid)
  simulcast : Option String
  simulcast03 : Option String
  rest : String
deriving DecidableEq, Repr

/-- A session description at the structured level: its type field and the
parsed media sections of its sdp text. The external sdp-transform codec is
a total parse / serialize pair, so the serialized text is a function of
this structure. -/
structure SessionDescription where
  type : String
  media : List MLine
deriving DecidableEq, Repr

/-- A simple serialization of a source descriptor, standing for the
sdp-transform writer on that line. -/
def writeSsrc (s : SsrcDesc) : String :=
  "a=ssrc:" ++ toString s.id ++ " " ++ s.attributeName ++ ":" ++ s.value ++ "\n"

/-- Serialization of a source grouping line. -/
def writeSsrcGroup (g : SsrcGroup) : String :=
  "a=ssrc-group:" ++ g.semantics ++ " " ++ g.ssrcs ++ "\n"

/-- Serialization of a rid line. -/
def writeRid (r : Rid) : String :=
  "a=rid:" ++ r.id ++ " " ++ r.direction ++ "\n"

/-- Serialization of one media section. -/
def writeMLine (m : MLine) : String :=
  "m=" ++ m.type ++ "\n"
    ++ m.rest
    ++ String.join (m.ssrcGroups.map writeSsrcGroup)
    ++ (match m.ssrcs with
        | none => ""
        | some ss => String.join (ss.map writeSsrc))
    ++ (match m.rids with
        | none => ""
        | some rs => String.join (rs.map writeRid))
    ++ (match m.simulcast with
        | none => ""
        | some v => "a=simulcast:" ++ v ++ "\n")
    ++ (match m.simulcast03 with
        | none => ""
        | some v => "a=simulcast:" ++ v ++ "\n")

/-- Serialization of a whole session description, standing for
transform.write composed with the RTCSessionDescription constructor. -/
def writeDesc (d : SessionDescription) : String :=
  "v=0 " ++ d.type ++ "\n" ++ String.join (d.media.map writeMLine)

/-- Splitting a character list on the space character, keeping empty
pieces, with the accumulated current piece carried in reverse. -/
def splitOnSpaceAux (cur : List Char) : List Char → List String
  | [] => [String.mk cur.reverse]
  | c :: rest =>
      if c = Char.ofNat 32 then String.mk cur.reverse :: splitOnSpaceAux [] rest
      else splitOnSpaceAux (c :: cur) rest

/-- The single-space split of a string, with the same pieces as the
JavaScript split on a one-space separator. -/
def splitOnSpace (s : String) : List String :=
  splitOnSpaceAux [] s.data

/-- The member id list of a grouping: its raw ssrcs string split on single
spaces, exactly as the split on the space character in
ensureCorrectOrderOfSsrcs does. -/
def memberIds (g : SsrcGroup) : List String :=
  splitOnSpace g.ssrcs

/-- One step of the reordering loop body of ensureCorrectOrderOfSsrcs:
reorderedSsrcs = reorderedSsrcs.concat(sources filtered by id). -/
def reorderFold (srcs : List SsrcDesc) (ms : List String) : List SsrcDesc :=
  ms.foldl (fun acc ssrc => acc ++ srcs.filter (fun s => toString s.id == ssrc)) []

/-- The per-section transformation performed by ensureCorrectOrderOfSsrcs:
audio sections and sections without groupings are returned as is, otherwise
the source list is rebuilt from the first grouping in member order. When
the section has a grouping but its ssrcs array is absent, the first loop
iteration calls filter on undefined and throws a TypeError, modelled as
none; the inner branch for an empty member list, in which the loop body
never runs and the assignment would install the empty rebuilt list, is
kept for exactness although a single-space split never yields an empty
list. -/
def reorderMLine (m : MLine) : Option MLine :=
  if m.type == "audio" then some m
  else
    match m.ssrcGroups with
    | [] => some m
    | g :: _ =>
      match m.ssrcs with
      | some srcs => some { m with ssrcs := some (reorderFold srcs (memberIds g)) }
      | none =>
          match memberIds g with
          | [] => some { m with ssrcs := some [] }
          | _ :: _ => none

/-- Effectful map over the media sections: the first section on which the
rewrite throws aborts the whole traversal, as the exception propagates out
of the forEach before any description is constructed. -/
def mapOption (f : MLine → Option MLine) : List MLine → Option (List MLine)
  | [] => some []
  | m :: rest =>
      match f m with
      | none => none
      | some m2 =>
          match mapOption f rest with
          | none => none
          | some rest2 => some (m2 :: rest2)

/-- TPCUtils.ensureCorrectOrderOfSsrcs: parses the description, rewrites
every media section with reorderMLine, and returns a fresh description of
the same type; none when the rewrite of some section throws. -/
def ensureCorrectOrderOfSsrcs (d : SessionDescription) : Option SessionDescription :=
  match mapOption reorderMLine d.media with
  | none => none
  | some ms => some { type := d.type, media := ms }

/-- Indexed map over media sections, mirroring sdp.media.forEach((mline, i)
mutation by index. -/
def mapMediaIdxAux (f : Nat → MLine → MLine) : Nat → List MLine → List MLine
  | _, [] => []
  | i, m :: rest => f i m :: mapMediaIdxAux f (i + 1) rest

/-- Indexed map over media sections starting at index zero. -/
def mapMediaIdx (f : Nat → MLine → MLine) (ms : List MLine) : List MLine :=
  mapMediaIdxAux f 0 ms

/-- The three receive rids inserted by insertUnifiedPlanSimulcastReceive,
ids SIM_LAYER_RIDS = 1, 2, 3 in order. -/
def simReceiveRids : List Rid :=
  [ { id := "1", direction := "recv" },
    { id := "2", direction := "recv" },
    { id := "3", direction := "recv" } ]

/-- The simulcast attribute value: the legacy rid= form, except on Firefox
versions above 71 which dropped the legacy syntax. -/
def simulcastLine (cfg : BrowserCfg) : String :=
  if cfg.isFirefox && cfg.isVersionGreaterThan71 then "recv 1;2;3"
  else "recv rid=1;2;3"

/-- Attach the three receive rids and the simulcast attribute to a media
section, as the insertion branch writes them. -/
def advertise (cfg : BrowserCfg) (m : MLine) : MLine :=
  { m with rids := some simReceiveRids, simulcast03 := some (simulcastLine cfg) }

/-- Erase the rids and both simulcast attribute forms of a media section,
as the stripping branch sets them to undefined. -/
def stripAdvert (m : MLine) : MLine :=
  { m with rids := none, simulcast := none, simulcast03 := none }

/-- TPCUtils.insertUnifiedPlanSimulcastReceive. Returns none where the
JavaScript throws: when simulcast is negotiated structurally and no video
section exists, sdp.media[-1] is undefined and reading .rids on it raises
a TypeError. -/
def insertUnifiedPlanSimulcastReceive (cfg : BrowserCfg) (d : SessionDescription) :
    Option SessionDescription :=
  if cfg.usesSdpMungingForSimulcast then some d
  else
    let idx := d.media.findIdx (fun m => m.type == "video")
    match d.media.get? idx with
    | none => none
    | some m =>
      if m.rids.isSome && (m.simulcast03.isSome || m.simulcast.isSome) then
        some { type := d.type,
               media := mapMediaIdx (fun i ml =>
                 if ml.type == "video" && i != idx then stripAdvert ml else ml) d.media }
      else
        some { type := d.type,
               media := mapMediaIdx (fun i ml =>
                 if i == idx then advertise cfg ml else ml) d.media }

/-- A JitsiLocalTrack as seen by TPCUtils: its rtcId key, the id of its
underlying MediaStreamTrack, its media kind, the original stream when the
capture device has produced one (none while device-muted), and its mute
state. Streams are identified by a numeric id. -/
structure LocalTrack where
  rtcId : Nat
  trackId : String
  kind : MediaType
  stream : Option Nat
  muted : Bool
deriving DecidableEq, Repr

/-- One encoding entry of RTCRtpEncodingParameters. Downscale factors in
the code are the exact values 1.0, 2.0 and 4.0, modelled as rationals. -/
structure RtpEncoding where
  active : Bool
  maxBitrate : Option Nat
  rid : Option String
  scaleResolutionDownBy : Option ℚ
deriving DecidableEq, Repr, Inhabited

/-- The encodings portion of the parameter set read from and written to an
RTCRtpSender. -/
structure RtpParams where
  encodings : List RtpEncoding
deriving DecidableEq, Repr

/-- An RTCRtpTransceiver as TPCUtils observes it: the kind of the receiver
track when receiver and track exist, the id of the sender track when
sender and track exist, the parameter set of the sender when readable, and
the transceiver direction string. -/
structure Transceiver where
  receiverTrackKind : Option MediaType
  senderTrack : Option String
  senderParams : Option RtpParams
  direction : String
deriving DecidableEq, Repr

/-- The mutable peer-connection bookkeeping state that TPCUtils operations
read and write: pc.localTracks (a Map from rtcId to track), pc.localSSRCs
(a Map from rtcId to ssrc, whose stored value may itself be undefined),
pc._addedStreams, and the transceiver list of the underlying connection. -/
structure PCState where
  localTracks : List (Nat × LocalTrack)
  localSSRCs : List (Nat × Option Nat)
  addedStreams : List Nat
  transceivers : List Transceiver
deriving DecidableEq, Repr

/-- Map.get on an insertion-ordered association list. -/
def mapGet (k : Nat) (m : List (Nat × α)) : Option α :=
  (m.find? (fun p => p.1 == k)).map Prod.snd

/-- Map.delete: removes the entry with the given key. -/
def mapDelete (k : Nat) (m : List (Nat × α)) : List (Nat × α) :=
  m.filter (fun p => p.1 != k)

/-- Map.set: overwrites in place when the key exists, appends otherwise. -/
def mapSet (k : Nat) (v : α) (m : List (Nat × α)) : List (Nat × α) :=
  if m.any (fun p => p.1 == k) then
    m.map (fun p => if p.1 == k then (k, v) else p)
  else m ++ [(k, v)]

/-- Replaces the transceiver at a given position, mirroring in-place
mutation of the object returned by getTransceivers().find. -/
def updateAt (f : Transceiver → Transceiver) : Nat → List Transceiver → List Transceiver
  | _, [] => []
  | 0, t :: ts => f t :: ts
  | n + 1, t :: ts => t :: updateAt f n ts

/-- The errors TPCUtils surfaces as rejected promises. -/
inductive TPCError where
  | transceiverNotFound (mediaType : MediaType)
  | replaceTrackFailed
deriving DecidableEq, Repr

/-- The trackRemoved test at the top of TPCUtils._findTransceiver: true
when no track is given, or when the browser mutes video by removing the
stream and the given track is a muted video track. -/
def trackRemoved (cfg : BrowserCfg) : Option LocalTrack → Bool
  | none => true
  | some t => cfg.doesVideoMuteByStreamRemove && (t.kind == MediaType.video) && t.muted

/-- TPCUtils._findTransceiver, returning the position of the transceiver it
finds: receiver-side kind search when the track is absent or removed,
sender-side track id search otherwise. -/
def findTransceiverIdx (cfg : BrowserCfg) (ts : List Transceiver) (mt : MediaType)
    (lt : Option LocalTrack) : Option Nat :=
  if trackRemoved cfg lt then
    ts.findIdx? (fun t => t.receiverTrackKind == some mt)
  else
    match lt with
    | some l => ts.findIdx? (fun t => t.senderTrack == some l.trackId)
    | none => none

/-- The TPCUtils instance data: the quirk flags, the resolved video
bitrates (low, standard, high), the localStreamEncodingsConfig field, and
the pc.isSimulcastOn() answer for this session. -/
structure TPC where
  cfg : BrowserCfg
  bitrateLow : Nat
  bitrateStandard : Nat
  bitrateHigh : Nat
  encodingsConfig : List RtpEncoding
  simulcastOn : Bool
deriving DecidableEq, Repr

/-- The localStreamEncodingsConfig list built in the constructor: three
layers with rids 1, 2 and 3; bitrates and downscale factors mirrored
between Firefox and the other browsers. -/
def mkEncodingsConfig (cfg : BrowserCfg) (low standard high : Nat) : List RtpEncoding :=
  [ { active := true,
      maxBitrate := some (if cfg.isFirefox then high else low),
      rid := some "1",
      scaleResolutionDownBy := some (if cfg.isFirefox then 1 else 4) },
    { active := true,
      maxBitrate := some standard,
      rid := some "2",
      scaleResolutionDownBy := some 2 },
    { active := true,
      maxBitrate := some (if cfg.isFirefox then low else high),
      rid := some "3",
      scaleResolutionDownBy := some (if cfg.isFirefox then 4 else 1) } ]

/-- TPCUtils._getStreamEncodings: the full layer configuration for a video
track with simulcast on, a single full-bitrate entry for video otherwise,
and a single active entry for audio. -/
def getStreamEncodings (tpc : TPC) (t : LocalTrack) : List RtpEncoding :=
  if tpc.simulcastOn && (t.kind == MediaType.video) then tpc.encodingsConfig
  else if t.kind == MediaType.video then
    [ { active := true, maxBitrate := some tpc.bitrateHigh, rid := none,
        scaleResolutionDownBy := none } ]
  else
    [ { active := true, maxBitrate := none, rid := none, scaleResolutionDownBy := none } ]

/-- TPCUtils.addTrackUnmute: looks the transceiver up by receiver kind and
replaces the sender track; rejects without touching any table when no
transceiver matches. The returned state is paired with the promise
outcome. -/
def addTrackUnmute (cfg : BrowserCfg) (st : PCState) (lt : LocalTrack) :
    PCState × Except TPCError Unit :=
  match findTransceiverIdx cfg st.transceivers lt.kind none with
  | none => (st, Except.error (TPCError.transceiverNotFound lt.kind))
  | some i =>
      let ts2 := updateAt (fun t => { t with senderTrack := some lt.trackId }) i st.transceivers
      ({ st with transceivers := ts2 }, Except.ok ())

/-- TPCUtils.removeTrackMute: looks the transceiver up for the given track
and replaces the sender track with null; rejects when none matches. -/
def removeTrackMute (cfg : BrowserCfg) (st : PCState) (lt : LocalTrack) :
    PCState × Except TPCError Unit :=
  match findTransceiverIdx cfg st.transceivers lt.kind (some lt) with
  | none => (st, Except.error (TPCError.transceiverNotFound lt.kind))
  | some i =>
      let ts2 := updateAt (fun t => { t with senderTrack := none }) i st.transceivers
      ({ st with transceivers := ts2 }, Except.ok ())

/-- TPCUtils.setEncodings: resolves as a no-op when the transceiver lookup
fails or the sender reports no encodings yet; otherwise overwrites the
parameter encodings with _getStreamEncodings and commits them. -/
def setEncodings (tpc : TPC) (st : PCState) (t : LocalTrack) :
    PCState × Except TPCError Unit :=
  match findTransceiverIdx tpc.cfg st.transceivers t.kind (some t) with
  | none => (st, Except.ok ())
  | some i =>
    match (st.transceivers.get? i).bind (fun tr => tr.senderParams) with
    | none => (st, Except.ok ())
    | some p =>
      if p.encodings.isEmpty then (st, Except.ok ())
      else
        let newParams := { p with encodings := getStreamEncodings tpc t }
        let ts2 := updateAt (fun tr => { tr with senderParams := some newParams }) i st.transceivers
        ({ st with transceivers := ts2 }, Except.ok ())

/-- TPCUtils.replaceTrack, with the sender-side media replacement of the
underlying transport modelled on its success path. The four mutually
exclusive cases of the source are reproduced: both tracks with a
stream-less new track, both tracks with a stream, mute, unmute, and the
trivial no-op when neither track is given. -/
def replaceTrack (tpc : TPC) (st : PCState) (oldT newT : Option LocalTrack) :
    PCState × Except TPCError Unit :=
  match oldT, newT with
  | some o, some n =>
    match n.stream with
    | none =>
        ({ st with localTracks := mapSet n.rtcId n (mapDelete o.rtcId st.localTracks) },
         Except.ok ())
    | some stream =>
      match findTransceiverIdx tpc.cfg st.transceivers n.kind (some o) with
      | none => (st, Except.error TPCError.replaceTrackFailed)
      | some i =>
        let ssrc : Option Nat := (mapGet o.rtcId st.localSSRCs).bind id
        let ts2 := updateAt (fun t => { t with senderTrack := some n.trackId }) i st.transceivers
        ({ localTracks := mapSet n.rtcId n (mapDelete o.rtcId st.localTracks),
           localSSRCs := mapSet n.rtcId ssrc (mapDelete o.rtcId st.localSSRCs),
           addedStreams := st.addedStreams.filter (fun s => s != stream) ++ [stream],
           transceivers := ts2 },
         Except.ok ())
  | some o, none =>
    match removeTrackMute tpc.cfg st o with
    | (st1, Except.error e) => (st1, Except.error e)
    | (st1, Except.ok ()) =>
      let st2 :=
        match findTransceiverIdx tpc.cfg st1.transceivers o.kind none with
        | some i =>
            let ts2 := updateAt (fun t => { t with direction := "recvonly" }) i st1.transceivers
            { st1 with transceivers := ts2 }
        | none => st1
      ({ st2 with localTracks := mapDelete o.rtcId st2.localTracks,
                  localSSRCs := mapDelete o.rtcId st2.localSSRCs },
       Except.ok ())
  | none, some n =>
    match addTrackUnmute tpc.cfg st n with
    | (st1, Except.error e) => (st1, Except.error e)
    | (st1, Except.ok ()) =>
      let st2 :=
        match findTransceiverIdx tpc.cfg st1.transceivers n.kind (some n) with
        | some i =>
            let ts2 := updateAt (fun t => { t with direction := "sendrecv" }) i st1.transceivers
            { st1 with transceivers := ts2 }
        | none => st1
      match (if tpc.cfg.isChromiumBased then (st2, Except.ok ()) else setEncodings tpc st2 n) with
      | (st3, Except.error e) => (st3, Except.error e)
      | (st3, Except.ok ()) =>
          ({ st3 with localTracks := mapSet n.rtcId n st3.localTracks }, Except.ok ())
  | none, none => (st, Except.ok ())

/-- The allEqualEncodings test inside updateEncodingsResolution: every
encoding has a defined downscale factor equal to that of the first
encoding. Vacuously true on the empty list. -/
def allEqualEncodings (es : List RtpEncoding) : Bool :=
  es.all (fun e => e.scaleResolutionDownBy.isSome
    && (e.scaleResolutionDownBy == (es.headD default).scaleResolutionDownBy))

/-- The positional overwrite loop of updateEncodingsResolution: each
reported encoding takes the downscale factor of the configuration entry at
its index. Only called when the report is no longer than the
configuration. -/
def overwriteScales : List RtpEncoding → List RtpEncoding → List RtpEncoding
  | _, [] => []
  | [], e :: rest => e :: rest
  | c :: cs, e :: rest =>
      { e with scaleResolutionDownBy := c.scaleResolutionDownBy } :: overwriteScales cs rest

/-- The parameter object handed to updateEncodingsResolution; its
encodings field may be absent. -/
structure ObservedParams where
  encodings : Option (List RtpEncoding)
deriving DecidableEq, Repr

/-- TPCUtils.updateEncodingsResolution. Returns none where the JavaScript
throws: when all reported factors are equal and the report is longer than
localStreamEncodingsConfig, the positional configuration lookup yields
undefined and reading .scaleResolutionDownBy on it raises a TypeError. -/
def updateEncodingsResolution (cfg : BrowserCfg) (encCfg : List RtpEncoding)
    (p : ObservedParams) : Option ObservedParams :=
  match p.encodings with
  | none => some p
  | some es =>
    if cfg.isWebKitBased then
      if allEqualEncodings es then
        if es.length ≤ encCfg.length then
          some { encodings := some (overwriteScales encCfg es) }
        else none
      else some p
    else some p

/-- Concatenation of the per-member filtered source lists, written as plain
structural recursion. -/
def concatMapS (f : String → List SsrcDesc) : List String → List SsrcDesc
  | [] => []
  | x :: xs => f x ++ concatMapS f xs

/-- Modelled from the spec wording of ensureCorrectOrderOfSsrcs together
with the amendment, for the refinement statement of the rewrite: for every
non-audio media section containing at least one source-grouping and
carrying a source-descriptor list, take the first grouping member-id list
in declared order and rebuild the source-descriptor list by, for each
member id in that order, concatenating the descriptor(s) whose id matches;
sections with no grouping are untouched, audio sections are always
skipped, and a grouped non-audio section with no source-descriptor list
makes the operation fail. -/
def specSectionRewrite (m : MLine) : Option MLine :=
  if m.type == "audio" then some m
  else
    match m.ssrcGroups.head? with
    | none => some m
    | some g =>
      match m.ssrcs with
      | none => none
      | some srcs =>
          let rebuilt :=
            concatMapS (fun mid => srcs.filter (fun s => toString s.id == mid)) (memberIds g)
          some { m with ssrcs := some rebuilt }

/-- The whole-description rewrite described by the spec: every section
rewritten by specSectionRewrite, failure propagating, the type field
preserved. -/
def specRewrite (d : SessionDescription) : Option SessionDescription :=
  match mapOption specSectionRewrite d.media with
  | none => none
  | some ms => some { type := d.type, media := ms }

/-- A media section carries the simulcast receive advertisement when it has
both the receive rid list and a simulcast attribute, matching the test at
the top of insertUnifiedPlanSimulcastReceive. -/
def carriesSimAdvert (m : MLine) : Bool :=
  m.rids.isSome && (m.simulcast03.isSome || m.simulcast.isSome)

/-- Decidable test that the source list of a section places the id a
immediately before the id b somewhere. -/
def consecutivePair (srcs : List SsrcDesc) (a b : String) : Bool :=
  (List.range srcs.length).any (fun i =>
    ((srcs.get? i).map (fun s => toString s.id) == some a)
      && ((srcs.get? (i + 1)).map (fun s => toString s.id) == some b))

/-- Decidable form of the post-rewrite ordering invariant of one section:
for every FID grouping, each declared member id is listed immediately
before the next declared member id in the source list (an absent source
array counts as an empty source list for the invariant). -/
def sectionOrdered (m : MLine) : Bool :=
  m.ssrcGroups.all (fun g =>
    if g.semantics == "FID" then
      (List.range (memberIds g).length).all (fun i =>
        match (memberIds g).get? i, (memberIds g).get? (i + 1) with
        | some a, some b => consecutivePair (m.ssrcs.getD []) a b
        | _, _ => true)
    else true)

/-- Decidable form of the post-rewrite ordering invariant of a whole
description: every non-audio section satisfies the per-section ordering. -/
def descOrdered (d : SessionDescription) : Bool :=
  d.media.all (fun m => (m.type == "audio") || sectionOrdered m)

/-- Decidable test that a section with a grouping is exactly covered by it:
a source-descriptor array is present, its id sequence coincides with the
first grouping member id sequence, and it holds no duplicate ids. -/
def exactCoverage (m : MLine) : Bool :=
  match m.ssrcGroups.head? with
  | none => true
  | some g =>
      match m.ssrcs with
      | none => false
      | some srcs =>
          (srcs.map (fun s => toString s.id) == memberIds g)
            && decide (srcs.map (fun s => toString s.id)).Nodup

/-- Decidable test that every non-audio section of a description is
exactly covered by its first grouping, when it has one. -/
def descExact (d : SessionDescription) : Bool :=
  d.media.all (fun m => (m.type == "audio") || exactCoverage m)

/-- A browser profile used by concrete instances: a Chromium-like browser
with structured simulcast negotiation. -/
def cfgChrome : BrowserCfg :=
  { isFirefox := false, isChromiumBased := true, isWebKitBased := false,
    isReactNative := false, doesVideoMuteByStreamRemove := false,
    usesSdpMungingForSimulcast := false, isVersionGreaterThan71 := false }

/-- A TPCUtils instance over cfgChrome with the default bitrate table. -/
def tpcChrome : TPC :=
  { cfg := cfgChrome, bitrateLow := 200000, bitrateStandard := 500000,
    bitrateHigh := 1500000,
    encodingsConfig := mkEncodingsConfig cfgChrome 200000 500000 1500000,
    simulcastOn := true }

/-- Concrete old video track with rtcId 1 and captured stream 100. -/
def oldTrackEx : LocalTrack :=
  { rtcId := 1, trackId := "old", kind := MediaType.video, stream := some 100, muted := false }

/-- Concrete replacement video track with rtcId 2 and captured stream 200. -/
def newTrackEx : LocalTrack :=
  { rtcId := 2, trackId := "new", kind := MediaType.video, stream := some 200, muted := false }

/-- Concrete transceiver whose sender carries the old track. -/
def transceiverEx : Transceiver :=
  { receiverTrackKind := some MediaType.video, senderTrack := some "old",
    senderParams := none, direction := "sendrecv" }

/-- Concrete bookkeeping state before the replacement: the old track is
registered under rtcId 1 with ssrc 555, and its stream 100 is in the
added-streams set. -/
def stateEx : PCState :=
  { localTracks := [(1, oldTrackEx)], localSSRCs := [(1, some 555)],
    addedStreams := [100], transceivers := [transceiverEx] }

/-- A video section with two sources listed rtx first, and one FID grouping
declaring the primary id 10 before the rtx id 20. -/
def exSection : MLine :=
  { type := "video",
    ssrcs := some [ { id := 20, attributeName := "cname", value := "b" },
                    { id := 10, attributeName := "cname", value := "a" } ],
    ssrcGroups := [ { semantics := "FID", ssrcs := "10 20" } ],
    rids := none, simulcast := none, simulcast03 := none, rest := "" }

/-- A non-audio section carrying a FID grouping but no a=ssrc line at all,
so its parsed ssrcs array is absent. -/
def noSsrcSection : MLine :=
  { type := "video",
    ssrcs := none,
    ssrcGroups := [ { semantics := "FID", ssrcs := "10 20" } ],
    rids := none, simulcast := none, simulcast03 := none, rest := "" }

/-- A video section satisfying the ordering invariant whose source list
also contains a third source absent from the only FID grouping. -/
def extraSourceSection : MLine :=
  { type := "video",
    ssrcs := some [ { id := 10, attributeName := "cname", value := "a" },
                    { id := 20, attributeName := "cname", value := "b" },
                    { id := 30, attributeName := "cname", value := "c" } ],
    ssrcGroups := [ { semantics := "FID", ssrcs := "10 20" } ],
    rids := none, simulcast := none, simulcast03 := none, rest := "" }

/-- A video section whose source ids are exactly the first grouping member
ids in order. -/
def exactSection : MLine :=
  { type := "video",
    ssrcs := some [ { id := 10, attributeName := "cname", value := "a" },
                    { id := 20, attributeName := "cname", value := "b" } ],
    ssrcGroups := [ { semantics := "FID", ssrcs := "10 20" } ],
    rids := none, simulcast := none, simulcast03 := none, rest := "" }

/-- A plain video section carrying no simulcast receive advertisement and
no source lines. -/
def plainVideoSection : MLine :=
  { type := "video", ssrcs := none, ssrcGroups := [],
    rids := none, simulcast := none, simulcast03 := none, rest := "" }

/-- A plain audio section. -/
def plainAudioSection : MLine :=
  { type := "audio", ssrcs := none, ssrcGroups := [],
    rids := none, simulcast := none, simulcast03 := none, rest := "" }

/-- A video section already carrying the receive rids and a simulcast
attribute. -/
def advertVideoSection : MLine :=
  { plainVideoSection with rids := some simReceiveRids, simulcast03 := some "recv rid=1;2;3" }

/-- A state with all bookkeeping tables empty and no transceivers. -/
def emptyState : PCState :=
  { localTracks := [], localSSRCs := [], addedStreams := [], transceivers := [] }

/-- A replacement video track whose capture device is muted: it has no
original stream. -/
def mutedNewTrackEx : LocalTrack :=
  { rtcId := 2, trackId := "new", kind := MediaType.video, stream := none, muted := true }

/-- A local audio track. -/
def audioTrackEx : LocalTrack :=
  { rtcId := 3, trackId := "mic", kind := MediaType.audio, stream := some 300, muted := false }

/-- The Chromium profile instance with simulcast disabled for the session. -/
def tpcUnicast : TPC :=
  { tpcChrome with simulcastOn := false }

/-- The bookkeeping state written by the success continuation of the
stream-bearing replacement path of replaceTrack, spelled out. -/
def streamSwapState (st : PCState) (o n : LocalTrack) (strm i : Nat) : PCState :=
  { localTracks := mapSet n.rtcId n (mapDelete o.rtcId st.localTracks),
    localSSRCs :=
      mapSet n.rtcId ((mapGet o.rtcId st.localSSRCs).bind id) (mapDelete o.rtcId st.localSSRCs),
    addedStreams := st.addedStreams.filter (fun s => s != strm) ++ [strm],
    transceivers :=
      updateAt (fun t => { t with senderTrack := some n.trackId }) i st.transceivers }

/-- A WebKit-based browser profile, for the resolution workaround. -/
def cfgWebKit : BrowserCfg :=
  { cfgChrome with isWebKitBased := true }

/-- An observed parameter set whose two encodings report the same collapsed
downscale factor. -/
def collapsedParamsEx : ObservedParams :=
  { encodings := some
      [ { active := true, maxBitrate := none, rid := none, scaleResolutionDownBy := some 1 },
        { active := true, maxBitrate := none, rid := none, scaleResolutionDownBy := some 1 } ] }

/-- An observed parameter set whose two encodings report different
downscale factors. -/
def distinctParamsEx : ObservedParams :=
  { encodings := some
      [ { active := true, maxBitrate := none, rid := none, scaleResolutionDownBy := some 4 },
        { active := true, maxBitrate := none, rid := none, scaleResolutionDownBy := some 2 } ] }

section HelperLemmas

theorem splitOnSpaceAux_ne_nil (l : List Char) (cur : List Char) :
    splitOnSpaceAux cur l ≠ [] := by
  induction l generalizing cur with
  | nil => simp [splitOnSpaceAux]
  | cons c rest ih =>
      unfold splitOnSpaceAux
      by_cases hc : c = Char.ofNat 32
      · simp [hc]
      · rw [if_neg hc]
        exact ih (c :: cur)

theorem splitOnSpace_ne_nil (s : String) : splitOnSpace s ≠ [] :=
  splitOnSpaceAux_ne_nil s.data []

theorem memberIds_ne_nil (g : SsrcGroup) : memberIds g ≠ [] :=
  splitOnSpace_ne_nil g.ssrcs

theorem findIdx?_eq_none_of_all {α : Type} (p : α → Bool) (l : List α) (i : Nat)
    (h : ∀ x ∈ l, p x = false) : List.findIdx? p l i = none := by
  induction l generalizing i with
  | nil => simp [List.findIdx?_nil]
  | cons x xs ih =>
      have hx : p x = false := h x (by simp)
      rw [List.findIdx?_cons, hx]
      simp only [Bool.false_eq_true, if_false]
      exact ih _ (fun y hy => h y (by simp [hy]))

theorem get?_findIdx_of_none {α : Type} (p : α → Bool) (l : List α)
    (h : ∀ x ∈ l, p x = false) : l.get? (l.findIdx p) = none := by
  induction l with
  | nil => simp
  | cons x xs ih =>
      have hx : p x = false := h x (by simp)
      rw [List.findIdx_cons, hx]
      simpa using ih (fun y hy => h y (by simp [hy]))

theorem mapGet_cons {α : Type} (k : Nat) (p : Nat × α) (m : List (Nat × α)) :
    mapGet k (p :: m) = if p.1 = k then some p.2 else mapGet k m := by
  by_cases h : p.1 = k
  · simp [mapGet, List.find?_cons_of_pos, h]
  · rw [if_neg h]
    unfold mapGet
    rw [List.find?_cons_of_neg]
    simp [h]

theorem mapDelete_cons {α : Type} (k : Nat) (p : Nat × α) (m : List (Nat × α)) :
    mapDelete k (p :: m) = if p.1 = k then mapDelete k m else p :: mapDelete k m := by
  by_cases h : p.1 = k <;> simp [mapDelete, List.filter_cons, h]

theorem mapSet_cons_ne {α : Type} (k : Nat) (v : α) (p : Nat × α) (m : List (Nat × α))
    (h : p.1 ≠ k) : mapSet k v (p :: m) = p :: mapSet k v m := by
  by_cases ham : m.any (fun q => q.1 == k) <;>
    simp [mapSet, List.any_cons, h, ham]

theorem mapGet_delete_self {α : Type} (k : Nat) (m : List (Nat × α)) :
    mapGet k (mapDelete k m) = none := by
  induction m with
  | nil => rfl
  | cons p m ih =>
      rw [mapDelete_cons]
      by_cases h : p.1 = k
      · simpa [h] using ih
      · rw [if_neg h, mapGet_cons, if_neg h]
        exact ih

theorem mapGet_delete_ne {α : Type} (j k : Nat) (m : List (Nat × α)) (h : j ≠ k) :
    mapGet j (mapDelete k m) = mapGet j m := by
  induction m with
  | nil => rfl
  | cons p m ih =>
      rw [mapDelete_cons]
      by_cases hp : p.1 = k
      · rw [if_pos hp, mapGet_cons, if_neg (by omega), ih]
      · rw [if_neg hp, mapGet_cons, mapGet_cons]
        by_cases hj : p.1 = j <;> simp [hj, ih]

theorem mapGet_set_self {α : Type} (k : Nat) (v : α) (m : List (Nat × α)) :
    mapGet k (mapSet k v m) = some v := by
  induction m with
  | nil => simp [mapSet, mapGet, List.find?_cons_of_pos]
  | cons p m ih =>
      by_cases h : p.1 = k
      · have hany : (p :: m).any (fun q => q.1 == k) = true := by
          simp [List.any_cons, h]
        simp only [mapSet, hany, if_pos]
        rw [List.map_cons]
        have : (if p.1 == k then (k, v) else p) = (k, v) := by simp [h]
        rw [this, mapGet_cons, if_pos rfl]
      · rw [mapSet_cons_ne k v p m h, mapGet_cons, if_neg h]
        exact ih

theorem mapGet_map_replace {α : Type} (j k : Nat) (v : α) (m : List (Nat × α)) (h : j ≠ k) :
    mapGet j (m.map (fun q => if q.1 == k then (k, v) else q)) = mapGet j m := by
  induction m with
  | nil => rfl
  | cons p m ih =>
      rw [List.map_cons]
      by_cases hp : p.1 = k
      · have : (if p.1 == k then (k, v) else p) = (k, v) := by simp [hp]
        rw [this, mapGet_cons, mapGet_cons, if_neg (by omega), if_neg (by omega)]
        exact ih
      · have : (if p.1 == k then (k, v) else p) = p := by simp [hp]
        rw [this, mapGet_cons, mapGet_cons]
        by_cases hj : p.1 = j
        · rw [if_pos hj, if_pos hj]
        · rw [if_neg hj, if_neg hj]
          exact ih

theorem mapGet_set_ne {α : Type} (j k : Nat) (v : α) (m : List (Nat × α)) (h : j ≠ k) :
    mapGet j (mapSet k v m) = mapGet j m := by
  induction m with
  | nil =>
      simp only [mapSet, List.any_nil, if_neg Bool.false_ne_true, List.nil_append]
      rw [mapGet_cons, if_neg (by omega)]
  | cons p m ih =>
      by_cases hp : p.1 = k
      · have hany : (p :: m).any (fun q => q.1 == k) = true := by
          simp [List.any_cons, hp]
        simp only [mapSet, hany, if_pos]
        rw [mapGet_map_replace j k v (p :: m) h, mapGet_cons]
      · rw [mapSet_cons_ne k v p m hp, mapGet_cons, mapGet_cons]
        by_cases hj : p.1 = j
        · rw [if_pos hj, if_pos hj]
        · rw [if_neg hj, if_neg hj]
          exact ih

end HelperLemmas

/-- C4: for every track whose media kind matches no transceiver on the peer
connection (no transceiver receiver carries that kind), addTrackUnmute
fails with the transceiver-not-found error and returns every bookkeeping
table exactly as it was. -/
theorem addTrackUnmute_no_transceiver (cfg : BrowserCfg) (st : PCState) (lt : LocalTrack)
    (h : ∀ t ∈ st.transceivers, t.receiverTrackKind ≠ some lt.kind) :
    addTrackUnmute cfg st lt = (st, Except.error (TPCError.transceiverNotFound lt.kind)) := by
  have hf : findTransceiverIdx cfg st.transceivers lt.kind none = none := by
    simp only [findTransceiverIdx, trackRemoved, if_pos]
    exact findIdx?_eq_none_of_all _ _ _ (fun t ht => by
      simp only [beq_eq_false_iff_ne, ne_eq]
      exact h t ht)
  simp [addTrackUnmute, hf]

/-- Witness for C4 at a concrete input: a video track against a state with
no transceivers at all. -/
theorem addTrackUnmute_no_transceiver_witness :
    addTrackUnmute cfgChrome emptyState oldTrackEx
      = (emptyState, Except.error (TPCError.transceiverNotFound MediaType.video)) :=
  addTrackUnmute_no_transceiver cfgChrome emptyState oldTrackEx (by decide)

/-- C5: replaceTrack with both tracks present and a stream-less new track
succeeds immediately, swaps only the id-to-track entries, and leaves the
synchronization-source table, the added-streams set and every transceiver
(hence the sender media for the old track) untouched. -/
theorem replaceTrack_device_muted (tpc : TPC) (st : PCState) (o n : LocalTrack)
    (h : n.stream = none) :
    replaceTrack tpc st (some o) (some n)
        = ({ st with localTracks := mapSet n.rtcId n (mapDelete o.rtcId st.localTracks) },
           Except.ok ())
    ∧ (replaceTrack tpc st (some o) (some n)).1.localSSRCs = st.localSSRCs
    ∧ (replaceTrack tpc st (some o) (some n)).1.addedStreams = st.addedStreams
    ∧ (replaceTrack tpc st (some o) (some n)).1.transceivers = st.transceivers := by
  refine ⟨by simp [replaceTrack, h], ?_, ?_, ?_⟩ <;> simp [replaceTrack, h]

/-- Witness for C5 at a concrete input: replacing the registered old track
by a device-muted track. -/
theorem replaceTrack_device_muted_witness :
    replaceTrack tpcChrome stateEx (some oldTrackEx) (some mutedNewTrackEx)
        = ({ stateEx with
              localTracks := mapSet mutedNewTrackEx.rtcId mutedNewTrackEx
                (mapDelete oldTrackEx.rtcId stateEx.localTracks) },
           Except.ok ())
    ∧ (replaceTrack tpcChrome stateEx (some oldTrackEx) (some mutedNewTrackEx)).1.localSSRCs
        = stateEx.localSSRCs
    ∧ (replaceTrack tpcChrome stateEx (some oldTrackEx) (some mutedNewTrackEx)).1.addedStreams
        = stateEx.addedStreams
    ∧ (replaceTrack tpcChrome stateEx (some oldTrackEx) (some mutedNewTrackEx)).1.transceivers
        = stateEx.transceivers :=
  replaceTrack_device_muted tpcChrome stateEx oldTrackEx mutedNewTrackEx rfl

/-- C7: with session simulcast disabled, the stream-encoding computation
returns exactly one entry whatever the layer configuration list of the
instance holds: for video the entry is active with the single non-simulcast
bitrate ceiling, for audio it is the bare active entry. -/
theorem getStreamEncodings_unicast (tpc : TPC) (t : LocalTrack)
    (h : tpc.simulcastOn = false) :
    (t.kind = MediaType.video →
      getStreamEncodings tpc t
        = [ { active := true, maxBitrate := some tpc.bitrateHigh, rid := none,
              scaleResolutionDownBy := none } ])
    ∧ (t.kind = MediaType.audio →
      getStreamEncodings tpc t
        = [ { active := true, maxBitrate := none, rid := none,
              scaleResolutionDownBy := none } ]) := by
  constructor <;> intro hk <;> simp [getStreamEncodings, h, hk]

/-- Witness for C7 at concrete inputs: a video and an audio track on the
unicast instance. -/
theorem getStreamEncodings_unicast_witness :
    getStreamEncodings tpcUnicast oldTrackEx
        = [ { active := true, maxBitrate := some tpcUnicast.bitrateHigh, rid := none,
              scaleResolutionDownBy := none } ]
    ∧ getStreamEncodings tpcUnicast audioTrackEx
        = [ { active := true, maxBitrate := none, rid := none,
              scaleResolutionDownBy := none } ] :=
  ⟨(getStreamEncodings_unicast tpcUnicast oldTrackEx rfl).1 rfl,
   (getStreamEncodings_unicast tpcUnicast audioTrackEx rfl).2 rfl⟩

/-- C10: when the transceiver lookup for a track finds nothing at all,
setEncodings resolves successfully with the state unchanged: no parameter
set is written to any sender and no transceiver-not-found error is
raised. -/
theorem setEncodings_noop_without_transceiver (tpc : TPC) (st : PCState) (t : LocalTrack)
    (h : findTransceiverIdx tpc.cfg st.transceivers t.kind (some t) = none) :
    setEncodings tpc st t = (st, Except.ok ()) := by
  simp [setEncodings, h]

/-- Witness for C10 at a concrete input: a track on a connection with no
transceivers. -/
theorem setEncodings_noop_without_transceiver_witness :
    setEncodings tpcChrome emptyState oldTrackEx = (emptyState, Except.ok ()) :=
  setEncodings_noop_without_transceiver tpcChrome emptyState oldTrackEx (by decide)

/-- C9: with structured simulcast negotiation in use,
insertUnifiedPlanSimulcastReceive on a description with no video section
does not return a description: it fails, because the code reads the rids
field of a media section that does not exist. -/
theorem insertSimulcast_fails_without_video (cfg : BrowserCfg) (d : SessionDescription)
    (h1 : cfg.usesSdpMungingForSimulcast = false)
    (h2 : ∀ m ∈ d.media, m.type ≠ "video") :
    insertUnifiedPlanSimulcastReceive cfg d = none := by
  have hg : d.media.get? (d.media.findIdx (fun m => m.type == "video")) = none :=
    get?_findIdx_of_none _ _ (fun m hm => by
      simp only [beq_eq_false_iff_ne, ne_eq]
      exact h2 m hm)
  rw [List.get?_eq_getElem?] at hg
  simp [insertUnifiedPlanSimulcastReceive, h1, hg]

/-- Witness for C9 at a concrete input: an audio-only description on the
Chromium profile. -/
theorem insertSimulcast_fails_without_video_witness :
    insertUnifiedPlanSimulcastReceive cfgChrome
        { type := "offer", media := [plainAudioSection] } = none :=
  insertSimulcast_fails_without_video cfgChrome
    { type := "offer", media := [plainAudioSection] } rfl (by decide)

theorem foldl_append_eq_concatMapS (g : String → List SsrcDesc) (ms : List String)
    (acc : List SsrcDesc) :
    ms.foldl (fun a mid => a ++ g mid) acc = acc ++ concatMapS g ms := by
  induction ms generalizing acc with
  | nil => simp [concatMapS]
  | cons x xs ih => simp [concatMapS, List.foldl_cons, ih]

theorem reorderFold_eq_concatMapS (srcs : List SsrcDesc) (ms : List String) :
    reorderFold srcs ms
      = concatMapS (fun mid => srcs.filter (fun s => toString s.id == mid)) ms := by
  simpa using foldl_append_eq_concatMapS
    (fun mid => srcs.filter (fun s => toString s.id == mid)) ms []

theorem reorderMLine_eq_specSectionRewrite (m : MLine) :
    reorderMLine m = specSectionRewrite m := by
  unfold reorderMLine specSectionRewrite
  by_cases ha : m.type == "audio"
  · simp [ha]
  · simp only [ha, Bool.false_eq_true, if_false]
    cases hg : m.ssrcGroups with
    | nil => simp
    | cons g gs =>
        simp only [List.head?_cons]
        cases hs : m.ssrcs with
        | none =>
            cases hmg : memberIds g with
            | nil => exact absurd hmg (memberIds_ne_nil g)
            | cons a rest => rfl
        | some srcs => simp [reorderFold_eq_concatMapS]

/-- Counterexample to C2 as stated: a non-audio media section with a
source-grouping but no a=ssrc line has an absent parsed ssrcs array, and
the first loop iteration calls filter on undefined and throws, so the
operation fails on this description instead of returning one with the
section rebuilt. -/
theorem ensureCorrectOrderOfSsrcs_throws_cex :
    noSsrcSection.type ≠ "audio"
    ∧ noSsrcSection.ssrcGroups ≠ []
    ∧ ensureCorrectOrderOfSsrcs { type := "offer", media := [noSsrcSection] } = none := by
  refine ⟨by decide, by decide, by decide⟩

/-- C2 as amended: ensureCorrectOrderOfSsrcs coincides on every description
with the spec-side rewrite, which leaves audio sections and ungrouped
sections unchanged, rebuilds each grouped non-audio section carrying a
source list by concatenating, for each member id of the first grouping in
declared order, the descriptors whose id matches, and fails on a grouped
non-audio section whose source list is absent; on the concrete section with
sources listed rtx-first and a grouping FID 10 20, the rewritten source
order is the primary id 10 then the rtx id 20. -/
theorem ensureCorrectOrderOfSsrcs_spec :
    (∀ d : SessionDescription, ensureCorrectOrderOfSsrcs d = specRewrite d)
    ∧ ensureCorrectOrderOfSsrcs { type := "offer", media := [exSection] }
        = some { type := "offer",
                 media := [ { exSection with
                    ssrcs := some [ { id := 10, attributeName := "cname", value := "a" },
                                    { id := 20, attributeName := "cname", value := "b" } ] } ] }
    := by
  constructor
  · intro d
    have hfun : reorderMLine = specSectionRewrite := funext reorderMLine_eq_specSectionRewrite
    unfold ensureCorrectOrderOfSsrcs specRewrite
    rw [hfun]
  · decide

theorem allEqualEncodings_all_eq {es : List RtpEncoding}
    (h : allEqualEncodings es = true) :
    ∀ a ∈ es, ∀ b ∈ es, a.scaleResolutionDownBy = b.scaleResolutionDownBy := by
  simp only [allEqualEncodings, List.all_eq_true, Bool.and_eq_true, beq_iff_eq] at h
  intro a ha b hb
  rw [(h a ha).2, (h b hb).2]

theorem overwriteScales_length (cs es : List RtpEncoding) :
    (overwriteScales cs es).length = es.length := by
  induction es generalizing cs with
  | nil => cases cs <;> rfl
  | cons e rest ih =>
      cases cs with
      | nil => rfl
      | cons c cs => simp [overwriteScales, ih]

theorem overwriteScales_idem (cs es : List RtpEncoding) :
    overwriteScales cs (overwriteScales cs es) = overwriteScales cs es := by
  induction es generalizing cs with
  | nil => cases cs <;> rfl
  | cons e rest ih =>
      cases cs with
      | nil => rfl
      | cons c cs => simp [overwriteScales, ih]

/-- C8: the resolution-reconciliation operation is idempotent in the sense
that whenever one application completes with a result, applying it to that
result completes and changes nothing; and a reported parameter set whose
encodings already carry two different downscale factors passes through
unmodified. -/
theorem updateEncodingsResolution_props (cfg : BrowserCfg) (encCfg : List RtpEncoding)
    (p : ObservedParams) :
    (∀ q, updateEncodingsResolution cfg encCfg p = some q →
        updateEncodingsResolution cfg encCfg q = some q)
    ∧ (∀ es, p.encodings = some es →
        (∃ e1 ∈ es, ∃ e2 ∈ es, e1.scaleResolutionDownBy ≠ e2.scaleResolutionDownBy) →
        updateEncodingsResolution cfg encCfg p = some p) := by
  constructor
  · intro q hq
    cases hp : p.encodings with
    | none =>
        simp only [updateEncodingsResolution, hp] at hq
        injection hq with hq
        simp only [updateEncodingsResolution, ← hq, hp]
    | some es =>
        simp only [updateEncodingsResolution, hp] at hq
        by_cases hwk : cfg.isWebKitBased
        · rw [if_pos hwk] at hq
          by_cases hall : allEqualEncodings es = true
          · rw [if_pos hall] at hq
            by_cases hlen : es.length ≤ encCfg.length
            · rw [if_pos hlen] at hq
              injection hq with hq
              simp only [updateEncodingsResolution, ← hq]
              rw [if_pos hwk]
              by_cases hall2 : allEqualEncodings (overwriteScales encCfg es) = true
              · rw [if_pos hall2,
                    if_pos (by rw [overwriteScales_length]; exact hlen),
                    overwriteScales_idem]
              · rw [if_neg hall2]
            · rw [if_neg hlen] at hq
              exact absurd hq (by simp)
          · rw [if_neg hall] at hq
            injection hq with hq
            simp only [updateEncodingsResolution, ← hq, hp]
            rw [if_pos hwk, if_neg hall]
        · rw [if_neg hwk] at hq
          injection hq with hq
          simp only [updateEncodingsResolution, ← hq, hp]
          rw [if_neg hwk]
  · intro es hes hne
    have hall : ¬allEqualEncodings es = true := by
      intro hall
      obtain ⟨e1, he1, e2, he2, hne12⟩ := hne
      exact hne12 (allEqualEncodings_all_eq hall e1 he1 e2 he2)
    simp only [updateEncodingsResolution, hes]
    by_cases hwk : cfg.isWebKitBased
    · rw [if_pos hwk, if_neg hall]
    · rw [if_neg hwk]

/-- Witness for C8 at concrete inputs: a collapsed two-entry report on the
WebKit profile reaches a fixed point after one application, and a report
with two distinct factors is returned unchanged. -/
theorem updateEncodingsResolution_props_witness :
    updateEncodingsResolution cfgWebKit tpcChrome.encodingsConfig
        { encodings := some
            [ { active := true, maxBitrate := none, rid := none,
                scaleResolutionDownBy := some 4 },
              { active := true, maxBitrate := none, rid := none,
                scaleResolutionDownBy := some 2 } ] }
      = some
        { encodings := some
            [ { active := true, maxBitrate := none, rid := none,
                scaleResolutionDownBy := some 4 },
              { active := true, maxBitrate := none, rid := none,
                scaleResolutionDownBy := some 2 } ] }
    ∧ updateEncodingsResolution cfgWebKit tpcChrome.encodingsConfig distinctParamsEx
      = some distinctParamsEx :=
  ⟨(updateEncodingsResolution_props cfgWebKit tpcChrome.encodingsConfig
      collapsedParamsEx).1 _ (by decide),
   (updateEncodingsResolution_props cfgWebKit tpcChrome.encodingsConfig
      distinctParamsEx).2 _ rfl (by decide)⟩

/-- C3: with structured simulcast negotiation in use, on a description of
two video sections with no simulcast attributes the rewriter adds the
three receive rids and the simulcast attribute to the first section only,
and on a description whose first video section already carries the
advertisement while another video section also does, the other section is
stripped; in both outcomes at most one section carries the simulcast
receive advertisement. -/
theorem insertSimulcast_single_advert (cfg : BrowserCfg) (ty : String) (v1 v2 : MLine)
    (hm : cfg.usesSdpMungingForSimulcast = false)
    (hv1 : v1.type = "video") (hv2 : v2.type = "video") :
    (v1.rids = none → v1.simulcast = none → v1.simulcast03 = none →
      v2.rids = none → v2.simulcast = none → v2.simulcast03 = none →
      insertUnifiedPlanSimulcastReceive cfg { type := ty, media := [v1, v2] }
          = some { type := ty, media := [advertise cfg v1, v2] }
        ∧ List.countP carriesSimAdvert [advertise cfg v1, v2] ≤ 1)
    ∧ (∀ r s r2 s2, v1.rids = some r → v1.simulcast03 = some s →
        v2.rids = some r2 → v2.simulcast03 = some s2 →
        insertUnifiedPlanSimulcastReceive cfg { type := ty, media := [v1, v2] }
            = some { type := ty, media := [v1, stripAdvert v2] }
          ∧ List.countP carriesSimAdvert [v1, stripAdvert v2] ≤ 1) := by
  have hidx : List.findIdx (fun m => m.type == "video") [v1, v2] = 0 := by
    rw [List.findIdx_cons]
    simp [hv1]
  constructor
  · intro hr1 hs1 hs31 hr2 hs2 hs32
    constructor
    · simp [insertUnifiedPlanSimulcastReceive, hm, hidx, hr1,
            mapMediaIdx, mapMediaIdxAux]
    · simp only [List.countP_cons, List.countP_nil, carriesSimAdvert, hr2,
        Option.isSome_none, Bool.false_and, if_neg Bool.false_ne_true]
      split <;> omega
  · intro r s r2 s2 hr1 hs31 hr2 hs32
    constructor
    · simp [insertUnifiedPlanSimulcastReceive, hm, hidx, hr1, hs31, hv2,
            mapMediaIdx, mapMediaIdxAux]
    · simp only [List.countP_cons, List.countP_nil, carriesSimAdvert, stripAdvert,
        Option.isSome_none, Bool.false_and, if_neg Bool.false_ne_true]
      split <;> omega

/-- Witness for C3 at concrete inputs: two clean video sections, then two
video sections both carrying the advertisement. -/
theorem insertSimulcast_single_advert_witness :
    (insertUnifiedPlanSimulcastReceive cfgChrome
          { type := "offer", media := [plainVideoSection, plainVideoSection] }
        = some { type := "offer",
                 media := [advertise cfgChrome plainVideoSection, plainVideoSection] }
      ∧ List.countP carriesSimAdvert
          [advertise cfgChrome plainVideoSection, plainVideoSection] ≤ 1)
    ∧ (insertUnifiedPlanSimulcastReceive cfgChrome
          { type := "offer", media := [advertVideoSection, advertVideoSection] }
        = some { type := "offer",
                 media := [advertVideoSection, stripAdvert advertVideoSection] }
      ∧ List.countP carriesSimAdvert
          [advertVideoSection, stripAdvert advertVideoSection] ≤ 1) :=
  ⟨(insertSimulcast_single_advert cfgChrome "offer" plainVideoSection plainVideoSection
      rfl rfl rfl).1 rfl rfl rfl rfl rfl rfl,
   (insertSimulcast_single_advert cfgChrome "offer" advertVideoSection advertVideoSection
      rfl rfl rfl).2 simReceiveRids "recv rid=1;2;3" simReceiveRids "recv rid=1;2;3"
      rfl rfl rfl rfl⟩

/-- Counterexample to C1 as stated: in a successful stream-bearing
replacement the filter on the added-streams set uses the stream of the NEW
track, so the stream of the old track, here 100, survives the call even
though the claim says it is removed; the set afterwards holds both the old
stream 100 and the new stream 200. -/
theorem replaceTrack_old_stream_kept_cex :
    ((replaceTrack tpcChrome stateEx (some oldTrackEx) (some newTrackEx)).2 = Except.ok ())
    ∧ oldTrackEx.stream = some 100
    ∧ newTrackEx.stream = some 200
    ∧ stateEx.addedStreams = [100]
    ∧ (replaceTrack tpcChrome stateEx (some oldTrackEx) (some newTrackEx)).1.addedStreams
        = [100, 200] :=
  ⟨rfl, rfl, rfl, rfl, rfl⟩

/-- C1 as amended: on a successful stream-bearing replacement the tables
are updated together: the old track id and synchronization-source entries
disappear, the new track id entry appears carrying the very
synchronization-source value the old track had, every occurrence of the
NEW stream is filtered from the added-streams set and the new stream is
pushed; entries for other streams, the old stream included when it
differs, stay in the set, and the sender of the located transceiver now
carries the new track. -/
theorem replaceTrack_stream_swap (tpc : TPC) (st : PCState) (o n : LocalTrack)
    (strm i : Nat)
    (hs : n.stream = some strm)
    (hid : o.rtcId ≠ n.rtcId)
    (hfind : findTransceiverIdx tpc.cfg st.transceivers n.kind (some o) = some i) :
    (replaceTrack tpc st (some o) (some n)).2 = Except.ok ()
    ∧ mapGet o.rtcId (replaceTrack tpc st (some o) (some n)).1.localTracks = none
    ∧ mapGet n.rtcId (replaceTrack tpc st (some o) (some n)).1.localTracks = some n
    ∧ mapGet o.rtcId (replaceTrack tpc st (some o) (some n)).1.localSSRCs = none
    ∧ mapGet n.rtcId (replaceTrack tpc st (some o) (some n)).1.localSSRCs
        = some ((mapGet o.rtcId st.localSSRCs).bind id)
    ∧ (replaceTrack tpc st (some o) (some n)).1.addedStreams
        = st.addedStreams.filter (fun s => s != strm) ++ [strm]
    ∧ (∀ x ∈ st.addedStreams, x ≠ strm →
        x ∈ (replaceTrack tpc st (some o) (some n)).1.addedStreams)
    ∧ (replaceTrack tpc st (some o) (some n)).1.transceivers
        = updateAt (fun t => { t with senderTrack := some n.trackId }) i st.transceivers := by
  have hres : replaceTrack tpc st (some o) (some n)
      = (streamSwapState st o n strm i, Except.ok ()) := by
    simp [replaceTrack, hs, hfind, streamSwapState]
  rw [hres]
  refine ⟨rfl, ?_, ?_, ?_, ?_, rfl, ?_, rfl⟩
  · rw [show (streamSwapState st o n strm i).localTracks
        = mapSet n.rtcId n (mapDelete o.rtcId st.localTracks) from rfl,
      mapGet_set_ne o.rtcId n.rtcId n _ hid, mapGet_delete_self]
  · exact mapGet_set_self n.rtcId n _
  · rw [show (streamSwapState st o n strm i).localSSRCs
        = mapSet n.rtcId ((mapGet o.rtcId st.localSSRCs).bind id)
            (mapDelete o.rtcId st.localSSRCs) from rfl,
      mapGet_set_ne o.rtcId n.rtcId _ _ hid, mapGet_delete_self]
  · exact mapGet_set_self n.rtcId _ _
  · intro x hx hne
    simp only [streamSwapState, List.mem_append, List.mem_filter]
    exact Or.inl ⟨hx, by simpa using hne⟩

/-- Witness for the amended C1 at a concrete input: replacing the
registered old track (stream 100, ssrc 555) by the new track with stream
200 on the single matching transceiver. -/
theorem replaceTrack_stream_swap_witness :
    (replaceTrack tpcChrome stateEx (some oldTrackEx) (some newTrackEx)).2 = Except.ok ()
    ∧ mapGet oldTrackEx.rtcId
        (replaceTrack tpcChrome stateEx (some oldTrackEx) (some newTrackEx)).1.localTracks
        = none
    ∧ mapGet newTrackEx.rtcId
        (replaceTrack tpcChrome stateEx (some oldTrackEx) (some newTrackEx)).1.localTracks
        = some newTrackEx
    ∧ mapGet oldTrackEx.rtcId
        (replaceTrack tpcChrome stateEx (some oldTrackEx) (some newTrackEx)).1.localSSRCs
        = none
    ∧ mapGet newTrackEx.rtcId
        (replaceTrack tpcChrome stateEx (some oldTrackEx) (some newTrackEx)).1.localSSRCs
        = some ((mapGet oldTrackEx.rtcId stateEx.localSSRCs).bind id)
    ∧ (replaceTrack tpcChrome stateEx (some oldTrackEx) (some newTrackEx)).1.addedStreams
        = stateEx.addedStreams.filter (fun s => s != 200) ++ [200]
    ∧ (∀ x ∈ stateEx.addedStreams, x ≠ 200 →
        x ∈ (replaceTrack tpcChrome stateEx (some oldTrackEx) (some newTrackEx)).1.addedStreams)
    ∧ (replaceTrack tpcChrome stateEx (some oldTrackEx) (some newTrackEx)).1.transceivers
        = updateAt (fun t => { t with senderTrack := some newTrackEx.trackId }) 0
            stateEx.transceivers :=
  replaceTrack_stream_swap tpcChrome stateEx oldTrackEx newTrackEx 200 0
    rfl (by decide) (by decide)

theorem filter_eq_singleton {srcs : List SsrcDesc}
    (hnd : (srcs.map (fun s => toString s.id)).Nodup) :
    ∀ x ∈ srcs, srcs.filter (fun s => toString s.id == toString x.id) = [x] := by
  induction srcs with
  | nil => simp
  | cons a rest ih =>
      rw [List.map_cons, List.nodup_cons] at hnd
      intro x hx
      rcases List.mem_cons.mp hx with hxa | hxr
      · subst hxa
        rw [List.filter_cons, if_pos (by simp)]
        have hrest : rest.filter (fun s => toString s.id == toString x.id) = [] := by
          rw [List.filter_eq_nil_iff]
          intro r hr
          simp only [beq_iff_eq]
          intro hcontra
          exact hnd.1 (hcontra ▸ List.mem_map_of_mem (fun s => toString s.id) hr)
        rw [hrest]
      · rw [List.filter_cons, if_neg, ih hnd.2 x hxr]
        simp only [beq_iff_eq]
        intro hcontra
        exact hnd.1 (hcontra ▸ List.mem_map_of_mem (fun s => toString s.id) hxr)

theorem concatMapS_map_eq (g : String → List SsrcDesc) (f : SsrcDesc → String) :
    ∀ sub : List SsrcDesc, (∀ x ∈ sub, g (f x) = [x]) → concatMapS g (sub.map f) = sub := by
  intro sub
  induction sub with
  | nil => intro _; rfl
  | cons x rest ih =>
      intro h
      rw [List.map_cons]
      show g (f x) ++ concatMapS g (rest.map f) = x :: rest
      rw [h x (by simp), ih (fun y hy => h y (by simp [hy]))]
      rfl

theorem reorderFold_exact {srcs : List SsrcDesc} {ms : List String}
    (hmap : srcs.map (fun s => toString s.id) = ms)
    (hnd : (srcs.map (fun s => toString s.id)).Nodup) :
    reorderFold srcs ms = srcs := by
  rw [reorderFold_eq_concatMapS, ← hmap]
  exact concatMapS_map_eq _ (fun s => toString s.id) srcs (filter_eq_singleton hnd)

theorem reorderMLine_grouped (m : MLine) (g : SsrcGroup) (gs : List SsrcGroup)
    (srcs : List SsrcDesc)
    (ha : (m.type == "audio") = false) (hg : m.ssrcGroups = g :: gs)
    (hs : m.ssrcs = some srcs) :
    reorderMLine m = some { m with ssrcs := some (reorderFold srcs (memberIds g)) } := by
  unfold reorderMLine
  rw [if_neg (by simp [ha]), hg, hs]

theorem reorderMLine_eq_self_of_exact {m : MLine}
    (h : ((m.type == "audio") || exactCoverage m) = true) :
    reorderMLine m = some m := by
  by_cases ha : (m.type == "audio") = true
  · simp [reorderMLine, ha]
  · have hex : exactCoverage m = true := by
      rcases Bool.or_eq_true_iff.mp h with h1 | h1
      · exact absurd h1 ha
      · exact h1
    cases hg : m.ssrcGroups with
    | nil =>
        unfold reorderMLine
        rw [if_neg ha, hg]
    | cons g gs =>
        unfold exactCoverage at hex
        rw [hg] at hex
        simp only [List.head?_cons] at hex
        cases hs : m.ssrcs with
        | none => rw [hs] at hex; exact absurd hex (by simp)
        | some srcs =>
            rw [hs] at hex
            rw [Bool.and_eq_true] at hex
            obtain ⟨hmap0, hnd0⟩ := hex
            have hmap : srcs.map (fun s => toString s.id) = memberIds g :=
              beq_iff_eq.mp hmap0
            have hnd : (srcs.map (fun s => toString s.id)).Nodup := of_decide_eq_true hnd0
            have hrf : reorderFold srcs (memberIds g) = srcs := reorderFold_exact hmap hnd
            rw [reorderMLine_grouped m g gs srcs (Bool.not_eq_true _ ▸ ha) hg hs, hrf, ← hs]

theorem mapOption_reorderMLine_eq_self {l : List MLine}
    (h : ∀ m ∈ l, reorderMLine m = some m) : mapOption reorderMLine l = some l := by
  induction l with
  | nil => rfl
  | cons a rest ih =>
      unfold mapOption
      rw [h a (by simp), ih (fun m hm => h m (by simp [hm]))]

/-- Counterexample to C6 as stated: a description with one video section
whose single FID grouping 10 20 is listed primary-then-rtx, satisfying the
ordering invariant, but whose source list also holds a third source with
id 30 absent from the grouping; the rewrite rebuilds the list from the
grouping members only and drops that source, so the output and its
serialization differ from the input. -/
theorem ensureCorrectOrderOfSsrcs_not_noop_cex :
    descOrdered { type := "offer", media := [extraSourceSection] } = true
    ∧ ensureCorrectOrderOfSsrcs { type := "offer", media := [extraSourceSection] }
        ≠ some { type := "offer", media := [extraSourceSection] }
    ∧ (ensureCorrectOrderOfSsrcs { type := "offer", media := [extraSourceSection] }).map
        writeDesc
        ≠ some (writeDesc { type := "offer", media := [extraSourceSection] }) := by
  refine ⟨by decide, by decide, by decide⟩

/-- C6 as amended: ensureCorrectOrderOfSsrcs is a no-op, with byte-identical
serialization, on every description that satisfies the ordering invariant
and in which, additionally, every non-audio section carrying a grouping has
its source id sequence exactly equal to the first grouping member sequence
with no duplicated id. -/
theorem ensureCorrectOrderOfSsrcs_noop (d : SessionDescription)
    (_hOrd : descOrdered d = true)
    (hEx : descExact d = true) :
    ensureCorrectOrderOfSsrcs d = some d
    ∧ (ensureCorrectOrderOfSsrcs d).map writeDesc = some (writeDesc d) := by
  have hmedia : mapOption reorderMLine d.media = some d.media := by
    refine mapOption_reorderMLine_eq_self (fun m hm => ?_)
    refine reorderMLine_eq_self_of_exact ?_
    exact (List.all_eq_true.mp hEx) m hm
  have hmain : ensureCorrectOrderOfSsrcs d = some d := by
    unfold ensureCorrectOrderOfSsrcs
    rw [hmedia]
  exact ⟨hmain, by rw [hmain]; rfl⟩

/-- Witness for the amended C6 at a concrete input: a description of one
video section whose two sources 10 and 20 are exactly the FID grouping
members in order. -/
theorem ensureCorrectOrderOfSsrcs_noop_witness :
    ensureCorrectOrderOfSsrcs { type := "offer", media := [exactSection] }
        = some { type := "offer", media := [exactSection] }
    ∧ (ensureCorrectOrderOfSsrcs { type := "offer", media := [exactSection] }).map writeDesc
        = some (writeDesc { type := "offer", media := [exactSection] }) :=
  ensureCorrectOrderOfSsrcs_noop { type := "offer", media := [exactSection] }
    (by decide) (by decide)

end TPCUtilsModel
